import Mathlib

/-!
Shallow embedding of the uftrace python tracing extension
(`src/python/trace-python.c`) and proofs about its symbol registry,
identity cache and event adapter.

Modelling conventions:
* the shared-memory symbol table is a `Symtab` record: the packed header
  word (`count`, `offset`, both `uint32_t`, updated together by the CAS)
  plus the byte content of the mapping (`data : Nat → Char`) and the
  process-local mapped size `uftrace_symtab_size` (`size`);
* `uint32_t` arithmetic is `Nat` arithmetic reduced `% 2^32` exactly where
  the C code computes in 32 bits;
* `snprintf(dst + off, n + 1, ...)` whose formatted output has length
  exactly `n` is modelled by `writeCStr`: it stores the `n` formatted
  characters at `[off, off + n)` and the terminating NUL at `off + n`;
* the Python C API (`PyObject_GetAttrString`, qualified-name computation)
  is external to the repository and is passed in as oracles (`PyApi`);
* CAS successes are linearized: a run of allocations is a list processed
  sequentially, which is exactly the order the compare-and-swap enforces.
-/

namespace UftracePy

/-- initial size of the symbol table and unit size for increment
(`#define UFTRACE_PYTHON_SYMTAB_SIZE (1 * 1024 * 1024)`). -/
def UFTRACE_PYTHON_SYMTAB_SIZE : Nat := 1 * 1024 * 1024

/-- size of the symbol table header including the padding
(`#define UFTRACE_PYTHON_SYMTAB_HDRSZ (48)`). -/
def UFTRACE_PYTHON_SYMTAB_HDRSZ : Nat := 48

/-- one 16-character zero-padded lowercase hex rendering, the effect of
`"%016x"` on a `uint32_t` value (at most 8 significant digits, so the
width is always exactly 16). -/
def hex16 (n : Nat) : List Char :=
  (List.range 16).map (fun i => Nat.digitChar (n / 16 ^ (15 - i) % 16))

/-- one formatted symbol line, the output of `"%016x %c %s\n"`. -/
def formatLine (addr : Nat) (kc : Char) (name : List Char) : List Char :=
  hex16 addr ++ [' ', kc, ' '] ++ name ++ ['\n']

/-- kind character of an entry: `is_pyfunc ? 'T' : 't'`. -/
def kindChar (is_pyfunc : Bool) : Char := if is_pyfunc then 'T' else 't'

/-- effect of `snprintf(base + o, s.length + 1, ...)` on the buffer when the
formatted output is exactly `s`: the characters of `s` land at
`[o, o + s.length)` and the terminating NUL byte at `o + s.length`. -/
def writeCStr (d : Nat → Char) (o : Nat) (s : List Char) (i : Nat) : Char :=
  if o ≤ i ∧ i < o + s.length then s.getD (i - o) (Char.ofNat 0)
  else if i = o + s.length then Char.ofNat 0
  else d i

/-- the bytes of the mapping at `[o, o + len)`. -/
def readRegion (d : Nat → Char) (o : Nat) : Nat → List Char
  | 0 => []
  | len + 1 => d o :: readRegion d (o + 1) len

/-- shared-memory symbol table state of one process: the header fields
`count`/`offset` (packed into one atomically updated word in the source),
the byte content of the shared mapping, and the process-local view
`uftrace_symtab_size` of the mapped size. -/
structure Symtab where
  count : Nat
  offset : Nat
  data : Nat → Char
  size : Nat

/-- `init_symtab`: freshly created, truncated (hence zero-filled) mapping,
header `count = 0`, `offset = UFTRACE_PYTHON_SYMTAB_HDRSZ`. -/
def init_symtab : Symtab :=
  { count := 0
    offset := UFTRACE_PYTHON_SYMTAB_HDRSZ
    data := fun _ => Char.ofNat 0
    size := UFTRACE_PYTHON_SYMTAB_SIZE }

/-- `get_new_sym_addr(name, is_pyfunc)`: advance the packed header by one
entry of `entry_size = strlen(name) + 20` bytes (CAS, here linearized), grow
the mapping by one `UFTRACE_PYTHON_SYMTAB_SIZE` unit when the new offset
reaches the mapped size (`new_hdr.offset >= uftrace_symtab_size`), then
`snprintf` the formatted line at the old offset, and return the new count.
`count` and `offset` are `uint32_t`, so their updates wrap `% 2^32`; the
formatted line has length exactly `entry_size`, so `snprintf`'s bound
`entry_size + 1` performs no truncation and stores a final NUL. -/
def get_new_sym_addr (name : List Char) (is_pyfunc : Bool) (st : Symtab) :
    Nat × Symtab :=
  let entry_size := name.length + 20
  let new_count := (st.count + 1) % 2 ^ 32
  let new_offset := (st.offset + entry_size) % 2 ^ 32
  let grown_size :=
    if st.size ≤ new_offset then (st.size + UFTRACE_PYTHON_SYMTAB_SIZE) % 2 ^ 32
    else st.size
  (new_count,
    { count := new_count
      offset := new_offset
      data := writeCStr st.data st.offset (formatLine new_count (kindChar is_pyfunc) name)
      size := grown_size })

/-- one allocation request: the function name and its `is_pyfunc` kind. -/
abbrev Alloc := List Char × Bool

/-- a sequence of `get_new_sym_addr` calls, in CAS linearization order;
returns the addresses handed out and the final table state. -/
def runAllocs (st : Symtab) : List Alloc → List Nat × Symtab
  | [] => ([], st)
  | a :: rest =>
    let r := get_new_sym_addr a.1 a.2 st
    let rr := runAllocs r.2 rest
    (r.1 :: rr.1, rr.2)

/-- total number of entry bytes of a sequence of allocations. -/
def totalSize (l : List Alloc) : Nat := (l.map (fun a => a.1.length + 20)).sum

/-- the entry lines a run of allocations appends when the running count
starts at `c` (each line carries address `count + 1`, as a `uint32_t`). -/
def entriesFrom (c : Nat) : List Alloc → List Char
  | [] => []
  | a :: rest =>
    formatLine ((c + 1) % 2 ^ 32) (kindChar a.2) a.1 ++ entriesFrom (c + 1) rest

/-- the byte range `[start, start + size)` each allocation of a run reserves
through its successful compare-and-swap: the pre-CAS `offset` and its
`entry_size`. -/
def runRanges (st : Symtab) : List Alloc → List (Nat × Nat)
  | [] => []
  | a :: t => (st.offset, a.1.length + 20) :: runRanges ((get_new_sym_addr a.1 a.2 st).2) t

/-- decimal rendering of a `%u` argument. -/
def decChars (n : Nat) : List Char := Nat.toDigits 10 n

/-- the header comment block `write_symtab` prints before copying the entry
bytes: `# symbols: <count>`, `# path name: <name>`, then `#%*s\n` padded so
the block has the in-memory header size (`%*s` with width
`UFTRACE_PYTHON_SYMTAB_HDRSZ - 2 - len` prints that many spaces). -/
def headerBlock (count : Nat) (pathName : List Char) : List Char :=
  let line1 := "# symbols: ".data ++ decChars count ++ ['\n']
  let line2 := "# path name: ".data ++ pathName ++ ['\n']
  let len := line1.length + line2.length
  line1 ++ line2 ++
    ('#' :: (List.replicate (UFTRACE_PYTHON_SYMTAB_HDRSZ - 2 - len) ' ' ++ ['\n']))

/-- the sentinel line `write_symtab` appends for the old symbol file format:
`fprintf(fp, "%016x %c %s\n", symtab->count + 1, '?', "__sym_end")` (the
count is `uint32_t`, so the increment wraps). -/
def sentinelLine (count : Nat) : List Char :=
  formatLine ((count + 1) % 2 ^ 32) '?' ("__sym_end".data)

/-- full content of the `.sym` file on the successful path of
`write_symtab`: header comment block, the raw shmem bytes from
`UFTRACE_PYTHON_SYMTAB_HDRSZ` up to `symtab->offset` copied verbatim, and
the sentinel line. -/
def fileBytes (pathName : List Char) (st : Symtab) : List Char :=
  headerBlock st.count pathName ++
    readRegion st.data UFTRACE_PYTHON_SYMTAB_HDRSZ (st.offset - UFTRACE_PYTHON_SYMTAB_HDRSZ) ++
    sentinelLine st.count

/-- observable effects of one `write_symtab(dirname)` call.  `fileCreated`
records that `fopen(filename, "w")` succeeded (which already creates or
truncates the file); `nullDeref` records that the code went on to read
`symtab->count` through a NULL `symtab` pointer; `unmapped` / `fdClosed` /
`unlinked` are the `munmap` / `close` / `uftrace_shmem_unlink` cleanup
calls at the end of the function. -/
structure WriteSymtabResult where
  warned : Bool
  fileCreated : Bool
  fileContent : Option (List Char)
  nullDeref : Bool
  unmapped : Bool
  fdClosed : Bool
  unlinked : Bool

/-- `write_symtab(dirname)` as a function of whether `fopen` succeeds and of
the registry state (`none` models the NULL `symtab` pointer of a process
whose `init_symtab` never ran).  Source order: on `fopen` failure it warns
and returns at once — before any cleanup; on success it prints the header,
copies the entry bytes, appends the sentinel, closes the file and only then
unmaps, closes and unlinks the shared segment.  (`fwrite` never returns a
negative value, so the `pr_err` branch inside the copy loop is dead and the
copy is modelled as completing.) -/
def write_symtab (fopen_ok : Bool) (pathName : List Char) (st : Option Symtab) :
    WriteSymtabResult :=
  if fopen_ok then
    match st with
    | none =>
      { warned := false, fileCreated := true, fileContent := none,
        nullDeref := true, unmapped := false, fdClosed := false, unlinked := false }
    | some s =>
      { warned := false, fileCreated := true, fileContent := some (fileBytes pathName s),
        nullDeref := false, unmapped := true, fdClosed := true, unlinked := true }
  else
    { warned := true, fileCreated := false, fileContent := none,
      nullDeref := false, unmapped := false, fdClosed := false, unlinked := false }

/-- effects of `init_uftrace`: whether the shared segment was created
(`init_symtab`) and whether the hook lookup (`find_libmcount_funcs`) was
attempted, plus the debug toggle. -/
structure InitEffects where
  segmentCreated : Bool
  hooksSearched : Bool
  debugEnabled : Bool

/-- `init_uftrace()`: if `getenv("UFTRACE_SHMEM")` is NULL it returns
immediately — no segment, no hook search, `symtab` stays NULL; otherwise it
optionally enables debugging, creates the symbol table and searches for the
libmcount hooks. -/
def init_uftrace (shmem_env dbg_env : Option String) : InitEffects × Option Symtab :=
  match shmem_env with
  | none => ({ segmentCreated := false, hooksSearched := false, debugEnabled := false }, none)
  | some _ =>
    ({ segmentCreated := true, hooksSearched := true, debugEnabled := dbg_env.isSome },
      some init_symtab)

/-- `uftrace_trace_python_finish`, the `__attribute__((destructor))` hook:
it unconditionally calls `write_symtab(dirname)` with whatever registry
state the process has — including the NULL `symtab` of a process where the
environment gating made `init_uftrace` return early. -/
def uftrace_trace_python_finish (st : Option Symtab) (fopen_ok : Bool)
    (pathName : List Char) : WriteSymtabResult :=
  write_symtab fopen_ok pathName st

/-- oracles for the Python C API, external to this repository: `code_of f`
is `PyObject_GetAttrString(frame, "f_code")` (pointer identity of the code
object, `none` for a NULL result); `pyname_of f c` / `cname_of f c` are
`get_python_funcname` / `get_c_funcname` (`none` for a NULL name). -/
structure PyApi where
  code_of : Nat → Option Nat
  pyname_of : Nat → Nat → Option (List Char)
  cname_of : Nat → Nat → Option (List Char)

/-- Modelled from the spec: the red-black tree operations behind
`code_tree` (`rb_link_node`, `rb_insert_color`, `rb_entry` from
`utils/rbtree.h`) are not under `src/`; §4.3 and §9 of the spec say "any
balanced ordered map keyed by raw identity value suffices", so the cache is
modelled as a finite map from code-object identity to address, realized as
an association list searched by key equality — the equality test
`iter->code == code` of the source's search loop. -/
def tree_lookup : List (Nat × Nat) → Nat → Option Nat
  | [], _ => none
  | e :: t, key => if e.1 = key then some e.2 else tree_lookup t key

/-- per-process state touched by `convert_function_addr`: the identity
cache `code_tree` and the shared symbol table. -/
structure Process where
  code_tree : List (Nat × Nat)
  symtab : Symtab

/-- `convert_function_addr(frame, args, is_pyfunc)`: fetch the frame's code
object (NULL → address 0); for native calls the key is `args` instead; on a
cache hit return the stored address with no other effect; on a miss compute
the name (`get_python_funcname` / `get_c_funcname`), and if it is NULL
return 0 without touching cache or registry, else allocate a new address in
the shared table and insert the `(code, addr)` pair into the cache. -/
def convert_function_addr (api : PyApi) (frame args : Nat) (is_pyfunc : Bool)
    (ps : Process) : Nat × Process :=
  match api.code_of frame with
  | none => (0, ps)
  | some fc =>
    let code := if is_pyfunc then fc else args
    match tree_lookup ps.code_tree code with
    | some addr => (addr, ps)
    | none =>
      let fn := if is_pyfunc then api.pyname_of frame fc else api.cname_of frame code
      match fn with
      | none => (0, ps)
      | some name =>
        let r := get_new_sym_addr name is_pyfunc ps.symtab
        (r.1, { code_tree := (code, r.1) :: ps.code_tree, symtab := r.2 })

/-- return value of the trace function: `Py_RETURN_NONE` or the module's
own trace function handle (`get_trace_function()`). -/
inductive PyRet
  | pyNone
  | traceFunc
deriving DecidableEq

/-- one call into the tracing backend: `cygprof_enter(child, parent)` or
`cygprof_exit(child, parent)`. -/
inductive HookCall
  | enter (child parent : Nat)
  | exitHook (child parent : Nat)
deriving DecidableEq

/-- per-process state of the event adapter: the function-static
`first_frame`, the `skip_first_frame` configuration flag, and the cache and
registry of `convert_function_addr`. -/
structure TraceState where
  first_frame : Option Nat
  skip_first_frame : Bool
  proc : Process

/-- result of one `uftrace_trace_python` invocation: the Python return
value, the backend hook calls made, and the updated state. -/
structure TraceResult where
  ret : PyRet
  hooks : List HookCall
  st : TraceState

/-- `uftrace_trace_python(self, args)`: `none` models a failed
`PyArg_ParseTuple` (return `Py_None`, state untouched); otherwise the first
frame ever seen is recorded in `first_frame`, events on that frame are
skipped with `Py_None` while `skip_first_frame` is set, `call` / `c_call`
resolve an address and call `cygprof_enter(addr, 0)`, `return` /
`c_return` / `c_exception` call `cygprof_exit(0, 0)`, and every
non-skipped invocation returns the trace function handle. -/
def uftrace_trace_python (api : PyApi) (parsed : Option (Nat × String × Nat))
    (ts : TraceState) : TraceResult :=
  match parsed with
  | none => { ret := PyRet.pyNone, hooks := [], st := ts }
  | some (frame, event, args_tuple) =>
    let ff := ts.first_frame.getD frame
    let ts1 : TraceState := { ts with first_frame := some ff }
    if ts.skip_first_frame = true ∧ frame = ff then
      { ret := PyRet.pyNone, hooks := [], st := ts1 }
    else if event = "call" ∨ event = "c_call" then
      let r := convert_function_addr api frame args_tuple (event = "call") ts1.proc
      { ret := PyRet.traceFunc, hooks := [HookCall.enter r.1 0],
        st := { ts1 with proc := r.2 } }
    else if event = "return" ∨ event = "c_return" then
      { ret := PyRet.traceFunc, hooks := [HookCall.exitHook 0 0], st := ts1 }
    else if event = "c_exception" then
      { ret := PyRet.traceFunc, hooks := [HookCall.exitHook 0 0], st := ts1 }
    else
      { ret := PyRet.traceFunc, hooks := [], st := ts1 }

/-- concrete oracle for scenarios where the frame has a code object (id 10)
and the qualified name resolves to `"f"`. -/
def apiHit : PyApi :=
  { code_of := fun _ => some 10
    pyname_of := fun _ _ => some ['f']
    cname_of := fun _ _ => none }

/-- concrete oracle for scenarios where the frame has a code object (id 10)
but name computation fails (`get_python_funcname` / `get_c_funcname`
return NULL). -/
def apiNoName : PyApi :=
  { code_of := fun _ => some 10
    pyname_of := fun _ _ => none
    cname_of := fun _ _ => none }

/-- process state whose identity cache already holds code object 10 at
address 7 over a fresh registry. -/
def psHit : Process := { code_tree := [(10, 7)], symtab := init_symtab }

/-- process state with an empty identity cache and a fresh registry. -/
def procEmpty : Process := { code_tree := [], symtab := init_symtab }

/-- adapter state with root-frame skipping on and the root frame already
recorded as frame 99. -/
def tsSkip : TraceState :=
  { first_frame := some 99, skip_first_frame := true, proc := procEmpty }

/-- adapter state with root-frame skipping on and no event seen yet. -/
def tsFresh : TraceState :=
  { first_frame := none, skip_first_frame := true, proc := procEmpty }

/-! Helper lemmas. -/

theorem hex16_length (n : Nat) : (hex16 n).length = 16 := by
  simp [hex16]

theorem formatLine_length (addr : Nat) (kc : Char) (name : List Char) :
    (formatLine addr kc name).length = name.length + 20 := by
  simp [formatLine, hex16_length]
  omega

theorem writeCStr_eq_of_lt (d : Nat → Char) (o : Nat) (s : List Char) (i : Nat)
    (h : i < o) : writeCStr d o s i = d i := by
  unfold writeCStr
  rw [if_neg (by omega), if_neg (by omega)]

theorem writeCStr_eq_of_gt (d : Nat → Char) (o : Nat) (s : List Char) (i : Nat)
    (h : o + s.length < i) : writeCStr d o s i = d i := by
  unfold writeCStr
  rw [if_neg (by omega), if_neg (by omega)]

theorem writeCStr_inside (d : Nat → Char) (o : Nat) (s : List Char) (i : Nat)
    (h1 : o ≤ i) (h2 : i < o + s.length) :
    writeCStr d o s i = s.getD (i - o) (Char.ofNat 0) := by
  unfold writeCStr
  rw [if_pos ⟨h1, h2⟩]

theorem writeCStr_nul (d : Nat → Char) (o : Nat) (s : List Char) :
    writeCStr d o s (o + s.length) = Char.ofNat 0 := by
  unfold writeCStr
  rw [if_neg (by omega), if_pos rfl]

theorem writeCStr_changed (d : Nat → Char) (o : Nat) (s : List Char) (i : Nat)
    (h : writeCStr d o s i ≠ d i) : o ≤ i ∧ i ≤ o + s.length := by
  by_contra hc
  rcases Nat.lt_or_ge i o with h1 | h1
  · exact h (writeCStr_eq_of_lt d o s i h1)
  · rcases Nat.lt_or_ge (o + s.length) i with h2 | h2
    · exact h (writeCStr_eq_of_gt d o s i h2)
    · exact hc ⟨h1, h2⟩

theorem readRegion_congr (len : Nat) (d1 d2 : Nat → Char) (o : Nat)
    (h : ∀ j, j < len → d1 (o + j) = d2 (o + j)) :
    readRegion d1 o len = readRegion d2 o len := by
  induction len generalizing o with
  | zero => rfl
  | succ n ih =>
    have h0 : d1 o = d2 o := by simpa using h 0 (Nat.succ_pos n)
    have ht : readRegion d1 (o + 1) n = readRegion d2 (o + 1) n := by
      refine ih (o + 1) fun j hj => ?_
      have := h (j + 1) (by omega)
      simpa [Nat.add_assoc, Nat.add_comm 1 j] using this
    simp [readRegion, h0, ht]

theorem readRegion_append (d : Nat → Char) (o len1 len2 : Nat) :
    readRegion d o (len1 + len2) =
      readRegion d o len1 ++ readRegion d (o + len1) len2 := by
  induction len1 generalizing o with
  | zero => simp [readRegion]
  | succ n ih =>
    have : n + 1 + len2 = (n + len2) + 1 := by omega
    rw [this]
    simp only [readRegion, ih (o + 1), List.cons_append]
    have : o + 1 + n = o + (n + 1) := by omega
    rw [this]

theorem readRegion_writeCStr (s : List Char) :
    ∀ (d : Nat → Char) (o : Nat),
      readRegion (writeCStr d o s) o s.length = s := by
  induction s with
  | nil => intro d o; rfl
  | cons c t ih =>
    intro d o
    have hlen : (c :: t).length = t.length + 1 := rfl
    rw [hlen]
    have hhead : writeCStr d o (c :: t) o = c := by
      rw [writeCStr_inside d o (c :: t) o (Nat.le_refl o) (by simp)]
      simp
    have htail : readRegion (writeCStr d o (c :: t)) (o + 1) t.length = t := by
      have hcongr :
          readRegion (writeCStr d o (c :: t)) (o + 1) t.length =
            readRegion (writeCStr d (o + 1) t) (o + 1) t.length := by
        refine readRegion_congr t.length _ _ (o + 1) fun j hj => ?_
        have hL : writeCStr d o (c :: t) (o + 1 + j) = t.getD j (Char.ofNat 0) := by
          rw [writeCStr_inside d o (c :: t) (o + 1 + j) (by omega) (by simp; omega)]
          have : o + 1 + j - o = j + 1 := by omega
          rw [this]
          simp
        have hR : writeCStr d (o + 1) t (o + 1 + j) = t.getD j (Char.ofNat 0) := by
          rw [writeCStr_inside d (o + 1) t (o + 1 + j) (by omega) (by omega)]
          have : o + 1 + j - (o + 1) = j := by omega
          rw [this]
        rw [hL, hR]
      rw [hcongr, ih d (o + 1)]
    simp [readRegion, hhead, htail]

theorem alloc_fst (name : List Char) (k : Bool) (st : Symtab) :
    (get_new_sym_addr name k st).1 = (st.count + 1) % 2 ^ 32 := rfl

theorem alloc_count (name : List Char) (k : Bool) (st : Symtab) :
    ((get_new_sym_addr name k st).2).count = (st.count + 1) % 2 ^ 32 := rfl

theorem alloc_offset (name : List Char) (k : Bool) (st : Symtab) :
    ((get_new_sym_addr name k st).2).offset =
      (st.offset + (name.length + 20)) % 2 ^ 32 := rfl

theorem alloc_data (name : List Char) (k : Bool) (st : Symtab) :
    ((get_new_sym_addr name k st).2).data =
      writeCStr st.data st.offset
        (formatLine ((st.count + 1) % 2 ^ 32) (kindChar k) name) := rfl

theorem alloc_size (name : List Char) (k : Bool) (st : Symtab) :
    ((get_new_sym_addr name k st).2).size =
      if st.size ≤ (st.offset + (name.length + 20)) % 2 ^ 32 then
        (st.size + UFTRACE_PYTHON_SYMTAB_SIZE) % 2 ^ 32
      else st.size := rfl

theorem entriesFrom_mod (l : List Alloc) :
    ∀ c : Nat, entriesFrom (c % 2 ^ 32) l = entriesFrom c l := by
  induction l with
  | nil => intro c; rfl
  | cons a t ih =>
    intro c
    show formatLine ((c % 2 ^ 32 + 1) % 2 ^ 32) (kindChar a.2) a.1 ++
          entriesFrom (c % 2 ^ 32 + 1) t =
        formatLine ((c + 1) % 2 ^ 32) (kindChar a.2) a.1 ++ entriesFrom (c + 1) t
    have h1 : (c % 2 ^ 32 + 1) % 2 ^ 32 = (c + 1) % 2 ^ 32 := Nat.mod_add_mod c (2 ^ 32) 1
    have h2 : entriesFrom (c % 2 ^ 32 + 1) t = entriesFrom (c + 1) t := by
      calc entriesFrom (c % 2 ^ 32 + 1) t
          = entriesFrom ((c % 2 ^ 32 + 1) % 2 ^ 32) t := (ih _).symm
        _ = entriesFrom ((c + 1) % 2 ^ 32) t := by rw [h1]
        _ = entriesFrom (c + 1) t := ih _
    rw [h1, h2]

theorem totalSize_cons (a : Alloc) (t : List Alloc) :
    totalSize (a :: t) = (a.1.length + 20) + totalSize t := by
  simp [totalSize]

theorem length_le_totalSize (l : List Alloc) : l.length ≤ totalSize l := by
  induction l with
  | nil => simp [totalSize]
  | cons a t ih =>
    rw [totalSize_cons]
    simp only [List.length_cons]
    omega

theorem runAllocs_cons_snd (a : Alloc) (t : List Alloc) (st : Symtab) :
    (runAllocs st (a :: t)).2 = (runAllocs ((get_new_sym_addr a.1 a.2 st).2) t).2 := rfl

/-- behaviour of a whole linearized run of `get_new_sym_addr` calls, as long
as the `uint32_t` offset does not wrap: the offset advances by the total
entry size, the count by the number of allocations, bytes below the initial
offset are never touched, and the bytes appended at `[offset, offset +
totalSize)` are exactly the formatted entry lines in allocation order. -/
theorem runAllocs_spec (l : List Alloc) :
    ∀ st : Symtab, st.count < 2 ^ 32 → st.offset + totalSize l < 2 ^ 32 →
      ((runAllocs st l).2.offset = st.offset + totalSize l) ∧
      ((runAllocs st l).2.count = (st.count + l.length) % 2 ^ 32) ∧
      (∀ i, i < st.offset → (runAllocs st l).2.data i = st.data i) ∧
      readRegion (runAllocs st l).2.data st.offset (totalSize l) =
        entriesFrom st.count l := by
  induction l with
  | nil =>
    intro st hc _
    refine ⟨by simp [runAllocs, totalSize], ?_, fun i _ => rfl, rfl⟩
    have hmod : st.count % 2 ^ 32 = st.count := Nat.mod_eq_of_lt hc
    simpa [runAllocs] using hmod.symm
  | cons a t ih =>
    intro st hc h
    have htcons := totalSize_cons a t
    have hoff1 : ((get_new_sym_addr a.1 a.2 st).2).offset =
        st.offset + (a.1.length + 20) := by
      rw [alloc_offset]
      exact Nat.mod_eq_of_lt (by omega)
    have hcnt1lt : ((get_new_sym_addr a.1 a.2 st).2).count < 2 ^ 32 := by
      rw [alloc_count]
      exact Nat.mod_lt _ (by norm_num)
    obtain ⟨ihoff, ihcnt, ihdata, ihregion⟩ :=
      ih ((get_new_sym_addr a.1 a.2 st).2) hcnt1lt (by rw [hoff1]; omega)
    rw [runAllocs_cons_snd]
    refine ⟨?_, ?_, ?_, ?_⟩
    · rw [ihoff, hoff1]; omega
    · rw [ihcnt, alloc_count, Nat.mod_add_mod]
      have hlen : st.count + 1 + t.length = st.count + (a :: t).length := by
        simp only [List.length_cons]; omega
      rw [hlen]
    · intro i hi
      rw [ihdata i (by rw [hoff1]; omega), alloc_data]
      exact writeCStr_eq_of_lt _ _ _ _ hi
    · rw [htcons, readRegion_append]
      have hpart2 :
          readRegion (runAllocs ((get_new_sym_addr a.1 a.2 st).2) t).2.data
              (st.offset + (a.1.length + 20)) (totalSize t) =
            entriesFrom (st.count + 1) t := by
        rw [← hoff1, ihregion, alloc_count, entriesFrom_mod]
      have hpart1 :
          readRegion (runAllocs ((get_new_sym_addr a.1 a.2 st).2) t).2.data
              st.offset (a.1.length + 20) =
            formatLine ((st.count + 1) % 2 ^ 32) (kindChar a.2) a.1 := by
        have hcongr := readRegion_congr (a.1.length + 20)
          (runAllocs ((get_new_sym_addr a.1 a.2 st).2) t).2.data
          ((get_new_sym_addr a.1 a.2 st).2).data st.offset
          (fun j hj => ihdata (st.offset + j) (by rw [hoff1]; omega))
        rw [hcongr, alloc_data]
        have hflen := formatLine_length ((st.count + 1) % 2 ^ 32) (kindChar a.2) a.1
        rw [← hflen]
        exact readRegion_writeCStr _ _ _
      rw [hpart1, hpart2]
      rfl

theorem runRanges_cons (a : Alloc) (t : List Alloc) (st : Symtab) :
    runRanges st (a :: t) =
      (st.offset, a.1.length + 20) :: runRanges ((get_new_sym_addr a.1 a.2 st).2) t := rfl

theorem runRanges_bounds (t : List Alloc) :
    ∀ st : Symtab, st.offset + totalSize t < 2 ^ 32 →
      ∀ r ∈ runRanges st t, st.offset ≤ r.1 ∧ r.1 + r.2 ≤ st.offset + totalSize t := by
  induction t with
  | nil => intro st _ r hr; simp [runRanges] at hr
  | cons a t ih =>
    intro st h r hr
    have htcons := totalSize_cons a t
    rw [runRanges_cons] at hr
    have hoff1 : ((get_new_sym_addr a.1 a.2 st).2).offset =
        st.offset + (a.1.length + 20) := by
      rw [alloc_offset]
      exact Nat.mod_eq_of_lt (by omega)
    rcases List.mem_cons.mp hr with hhead | htail
    · subst hhead; constructor
      · exact Nat.le_refl _
      · simp only []; omega
    · have := ih ((get_new_sym_addr a.1 a.2 st).2) (by rw [hoff1]; omega) r htail
      rw [hoff1] at this
      omega

theorem runRanges_pairwise (l : List Alloc) :
    ∀ st : Symtab, st.offset + totalSize l < 2 ^ 32 →
      List.Pairwise (fun r s : Nat × Nat => r.1 + r.2 ≤ s.1 ∨ s.1 + s.2 ≤ r.1)
        (runRanges st l) := by
  induction l with
  | nil => intro st _; simp [runRanges]
  | cons a t ih =>
    intro st h
    have htcons := totalSize_cons a t
    have hoff1 : ((get_new_sym_addr a.1 a.2 st).2).offset =
        st.offset + (a.1.length + 20) := by
      rw [alloc_offset]
      exact Nat.mod_eq_of_lt (by omega)
    rw [runRanges_cons]
    refine List.Pairwise.cons ?_ (ih ((get_new_sym_addr a.1 a.2 st).2) (by rw [hoff1]; omega))
    intro r hr
    have := runRanges_bounds t ((get_new_sym_addr a.1 a.2 st).2) (by rw [hoff1]; omega) r hr
    rw [hoff1] at this
    left
    simp only []
    omega

/-! Claim C1. -/

/-- C1, counterexample to the claim as stated.  The claim says every byte
written by `get_new_sym_addr` when formatting its entry lies within the
reserved range `[oldOffset, oldOffset + entrySize)`.  For name `"a"` from a
registry whose header is at `count = 0`, `offset = 48` and whose buffer
holds `'x'` at byte 69 (as it would after a concurrent allocator reserved
the adjacent range `[69, 90)` and wrote its entry there), the call writes
the NUL terminator of `snprintf` at byte `69 = 48 + entrySize`, which is
outside the half-open reserved range `[48, 69)`. -/
theorem claim1_counterexample :
    ((get_new_sym_addr ['a'] true
        { count := 0, offset := 48, data := fun _ => 'x', size := 2 ^ 20 }).2.data 69 ≠ 'x') ∧
    ¬(48 ≤ 69 ∧ 69 < 48 + (([('a' : Char)] : List Char).length + 20)) := by
  constructor
  · decide
  · decide

/-- C1 (amended): the successful compare-and-swap advances the header
offset by exactly `entrySize = length(name) + 20`, reserving
`[oldOffset, oldOffset + entrySize)`; the ranges reserved by the successful
allocations of a run are pairwise disjoint; every byte `get_new_sym_addr`
writes lies in `[oldOffset, oldOffset + entrySize]` — the formatted entry
characters fill exactly the half-open reserved range, and the single byte
outside it is the NUL terminator of `snprintf` at `oldOffset + entrySize`,
the first byte of the successor range (overwritten by the next entry), so
entry contents never overlap. -/
theorem claim1_cas_reserves_ranges (st : Symtab) (name : List Char) (k : Bool)
    (l : List Alloc)
    (h1 : st.offset + (name.length + 20) < 2 ^ 32)
    (h2 : st.offset + totalSize l < 2 ^ 32) :
    ((get_new_sym_addr name k st).2.offset = st.offset + (name.length + 20)) ∧
    (∀ i, (get_new_sym_addr name k st).2.data i ≠ st.data i →
       st.offset ≤ i ∧ i ≤ st.offset + (name.length + 20)) ∧
    ((get_new_sym_addr name k st).2.data (st.offset + (name.length + 20)) = Char.ofNat 0) ∧
    (∀ i, st.offset ≤ i → i < st.offset + (name.length + 20) →
       (get_new_sym_addr name k st).2.data i =
         (formatLine ((st.count + 1) % 2 ^ 32) (kindChar k) name).getD
           (i - st.offset) (Char.ofNat 0)) ∧
    List.Pairwise (fun r s : Nat × Nat => r.1 + r.2 ≤ s.1 ∨ s.1 + s.2 ≤ r.1)
      (runRanges st l) := by
  have hflen := formatLine_length ((st.count + 1) % 2 ^ 32) (kindChar k) name
  refine ⟨?_, ?_, ?_, ?_, runRanges_pairwise l st h2⟩
  · rw [alloc_offset]
    exact Nat.mod_eq_of_lt h1
  · intro i hi
    rw [alloc_data] at hi
    have := writeCStr_changed _ _ _ _ hi
    rwa [hflen] at this
  · rw [alloc_data, ← hflen]
    exact writeCStr_nul _ _ _
  · intro i hlo hhi
    rw [alloc_data]
    exact writeCStr_inside _ _ _ _ hlo (by rw [hflen]; exact hhi)

/-- C1, witness for the amended theorem at `init_symtab`, name `"a"`,
run `["a" managed, "b" managed]`. -/
theorem claim1_cas_reserves_ranges_witness :
    (init_symtab.offset + (([('a' : Char)] : List Char).length + 20) < 2 ^ 32) ∧
    (init_symtab.offset + totalSize [([('a' : Char)], true), ([('b' : Char)], true)] < 2 ^ 32) ∧
    (((get_new_sym_addr [('a' : Char)] true init_symtab).2.offset =
        init_symtab.offset + (([('a' : Char)] : List Char).length + 20)) ∧
      (∀ i, (get_new_sym_addr [('a' : Char)] true init_symtab).2.data i ≠ init_symtab.data i →
         init_symtab.offset ≤ i ∧
           i ≤ init_symtab.offset + (([('a' : Char)] : List Char).length + 20)) ∧
      ((get_new_sym_addr [('a' : Char)] true init_symtab).2.data
          (init_symtab.offset + (([('a' : Char)] : List Char).length + 20)) = Char.ofNat 0) ∧
      (∀ i, init_symtab.offset ≤ i →
         i < init_symtab.offset + (([('a' : Char)] : List Char).length + 20) →
         (get_new_sym_addr [('a' : Char)] true init_symtab).2.data i =
           (formatLine ((init_symtab.count + 1) % 2 ^ 32) (kindChar true)
               [('a' : Char)]).getD (i - init_symtab.offset) (Char.ofNat 0)) ∧
      List.Pairwise (fun r s : Nat × Nat => r.1 + r.2 ≤ s.1 ∨ s.1 + s.2 ≤ r.1)
        (runRanges init_symtab [([('a' : Char)], true), ([('b' : Char)], true)])) :=
  ⟨by decide, by decide,
    claim1_cas_reserves_ranges init_symtab [('a' : Char)] true
      [([('a' : Char)], true), ([('b' : Char)], true)] (by decide) (by decide)⟩

/-! Claim C2. -/

/-- C2: sequentially allocating `"a"` (managed), `"b"` (managed), `"c"`
(native) on a fresh registry returns addresses 1, 2, 3 in that order, and
the file `write_symtab` produces consists of the header comment block
followed by exactly the three entry lines and the sentinel line with
address 4, kind `?`, name `__sym_end`. -/
theorem claim2_test_sequence (pathName : List Char) :
    ((runAllocs init_symtab
        [([('a' : Char)], true), ([('b' : Char)], true), ([('c' : Char)], false)]).1 =
      [1, 2, 3]) ∧
    ((write_symtab true pathName
        (some (runAllocs init_symtab
          [([('a' : Char)], true), ([('b' : Char)], true), ([('c' : Char)], false)]).2)).fileContent =
      some (headerBlock 3 pathName ++
        ("0000000000000001 T a\n0000000000000002 T b\n0000000000000003 t c\n0000000000000004 ? __sym_end\n").data)) := by
  constructor
  · decide
  · have hfc :
        (write_symtab true pathName
          (some (runAllocs init_symtab
            [([('a' : Char)], true), ([('b' : Char)], true), ([('c' : Char)], false)]).2)).fileContent =
        some (fileBytes pathName
          (runAllocs init_symtab
            [([('a' : Char)], true), ([('b' : Char)], true), ([('c' : Char)], false)]).2) := rfl
    rw [hfc]
    unfold fileBytes
    have hcnt :
        (runAllocs init_symtab
          [([('a' : Char)], true), ([('b' : Char)], true), ([('c' : Char)], false)]).2.count = 3 := by
      decide
    rw [hcnt, List.append_assoc]
    have hbody :
        readRegion
            (runAllocs init_symtab
              [([('a' : Char)], true), ([('b' : Char)], true), ([('c' : Char)], false)]).2.data
            UFTRACE_PYTHON_SYMTAB_HDRSZ
            ((runAllocs init_symtab
              [([('a' : Char)], true), ([('b' : Char)], true), ([('c' : Char)], false)]).2.offset -
              UFTRACE_PYTHON_SYMTAB_HDRSZ) ++
          sentinelLine 3 =
        ("0000000000000001 T a\n0000000000000002 T b\n0000000000000003 t c\n0000000000000004 ? __sym_end\n").data := by
      decide
    rw [hbody]

/-- C2, witness at path name `"python"`. -/
theorem claim2_test_sequence_witness :
    ((runAllocs init_symtab
        [([('a' : Char)], true), ([('b' : Char)], true), ([('c' : Char)], false)]).1 =
      [1, 2, 3]) ∧
    ((write_symtab true ("python".data)
        (some (runAllocs init_symtab
          [([('a' : Char)], true), ([('b' : Char)], true), ([('c' : Char)], false)]).2)).fileContent =
      some (headerBlock 3 ("python".data) ++
        ("0000000000000001 T a\n0000000000000002 T b\n0000000000000003 t c\n0000000000000004 ? __sym_end\n").data)) :=
  claim2_test_sequence ("python".data)

/-! Claim C3. -/

/-- C3: for an identity already present in the process-local cache,
`convert_function_addr` returns the stored address and leaves the whole
process state — cache and shared registry, hence count and offset —
unchanged; and once a call has issued a (non-zero) address for an identity,
calling again with the same inputs returns the same address with no further
state change, so one process never issues two different addresses for one
identity. -/
theorem claim3_resolve_idempotent (api : PyApi) (ps : Process) (frame args : Nat)
    (k : Bool) (fc : Nat) (hfc : api.code_of frame = some fc) :
    (∀ a, tree_lookup ps.code_tree (if k then fc else args) = some a →
        convert_function_addr api frame args k ps = (a, ps)) ∧
    (∀ a ps', convert_function_addr api frame args k ps = (a, ps') → a ≠ 0 →
        convert_function_addr api frame args k ps' = (a, ps')) := by
  constructor
  · intro a ha
    simp [convert_function_addr, hfc, ha]
  · intro a ps' heq hne
    rcases hl : tree_lookup ps.code_tree (if k then fc else args) with _ | addr
    · rcases hn : (if k then api.pyname_of frame fc
          else api.cname_of frame (if k then fc else args)) with _ | name
      · simp [convert_function_addr, hfc, hl, hn] at heq
        exact absurd heq.1.symm hne
      · simp [convert_function_addr, hfc, hl, hn] at heq
        obtain ⟨ha, hp⟩ := heq
        subst ha
        subst hp
        simp [convert_function_addr, hfc, tree_lookup]
    · simp [convert_function_addr, hfc, hl] at heq
      obtain ⟨ha, hp⟩ := heq
      subst ha
      subst hp
      simp [convert_function_addr, hfc, hl]

/-- C3, witness: cache `[(10, 7)]`, frame 1 whose code object is 10 —
resolution hits and the second-call conclusion is available. -/
theorem claim3_resolve_idempotent_witness :
    (apiHit.code_of 1 = some 10) ∧
    ((∀ a, tree_lookup psHit.code_tree (if true then 10 else 0) = some a →
        convert_function_addr apiHit 1 0 true psHit = (a, psHit)) ∧
      (∀ a ps', convert_function_addr apiHit 1 0 true psHit = (a, ps') → a ≠ 0 →
        convert_function_addr apiHit 1 0 true ps' = (a, ps'))) :=
  ⟨rfl, claim3_resolve_idempotent apiHit psHit 1 0 true 10 rfl⟩

/-! Claim C4. -/

/-- C4, counterexample to the claim as stated.  The claim says that when
the qualified name cannot be computed, `hookEnter` is not invoked for that
event.  For a `call` event on frame 1 (root frame is 99, so the event is
not skipped) whose name computation returns NULL, the adapter still calls
`cygprof_enter(0, 0)`: `convert_function_addr` returns address 0 and
`uftrace_trace_python` passes it to the enter hook unconditionally.  The
registry and the cache are indeed untouched. -/
theorem claim4_counterexample :
    ((uftrace_trace_python apiNoName (some (1, "call", 0)) tsSkip).hooks =
      [HookCall.enter 0 0]) ∧
    ([HookCall.enter 0 0] ≠ ([] : List HookCall)) ∧
    ((uftrace_trace_python apiNoName (some (1, "call", 0)) tsSkip).st.proc.code_tree = []) ∧
    ((uftrace_trace_python apiNoName (some (1, "call", 0)) tsSkip).st.proc.symtab.count = 0) ∧
    ((uftrace_trace_python apiNoName (some (1, "call", 0)) tsSkip).st.proc.symtab.offset =
      UFTRACE_PYTHON_SYMTAB_HDRSZ) := by
  refine ⟨?_, by decide, ?_, ?_, ?_⟩ <;> rfl

/-- C4 (amended): for every enter event whose qualified name cannot be
computed, the registry is not touched and no cache entry is created, and
tracing continues (the trace function handle is returned) — but the enter
hook is still invoked, with address 0, rather than being skipped. -/
theorem claim4_name_failure (api : PyApi) (ts : TraceState) (frame args fc : Nat)
    (ev : String)
    (hev : ev = "call" ∨ ev = "c_call")
    (hskip : ¬(ts.skip_first_frame = true ∧ frame = ts.first_frame.getD frame))
    (hfc : api.code_of frame = some fc)
    (hname : (if ev = "call" then api.pyname_of frame fc
        else api.cname_of frame args) = none)
    (hmiss : tree_lookup ts.proc.code_tree (if ev = "call" then fc else args) = none) :
    ((uftrace_trace_python api (some (frame, ev, args)) ts).hooks =
      [HookCall.enter 0 0]) ∧
    ((uftrace_trace_python api (some (frame, ev, args)) ts).st.proc = ts.proc) ∧
    ((uftrace_trace_python api (some (frame, ev, args)) ts).ret = PyRet.traceFunc) := by
  rcases hev with rfl | rfl
  · simp only [if_pos] at hname hmiss
    have hconv : convert_function_addr api frame args true ts.proc = (0, ts.proc) := by
      simp [convert_function_addr, hfc, hmiss, hname]
    refine ⟨?_, ?_, ?_⟩ <;>
      simp [uftrace_trace_python, hskip, hconv]
  · simp at hname hmiss
    have hconv : convert_function_addr api frame args false ts.proc = (0, ts.proc) := by
      simp [convert_function_addr, hfc, hmiss, hname]
    refine ⟨?_, ?_, ?_⟩ <;>
      simp [uftrace_trace_python, hskip, hconv]

/-- C4, witness: a `call` event on frame 1 with root frame 99, empty cache
and a name oracle that fails. -/
theorem claim4_name_failure_witness :
    (("call" : String) = "call" ∨ ("call" : String) = "c_call") ∧
    (¬(tsSkip.skip_first_frame = true ∧ 1 = tsSkip.first_frame.getD 1)) ∧
    (apiNoName.code_of 1 = some 10) ∧
    ((if ("call" : String) = "call" then apiNoName.pyname_of 1 10
        else apiNoName.cname_of 1 0) = none) ∧
    (tree_lookup tsSkip.proc.code_tree (if ("call" : String) = "call" then 10 else 0) = none) ∧
    (((uftrace_trace_python apiNoName (some (1, "call", 0)) tsSkip).hooks =
        [HookCall.enter 0 0]) ∧
      ((uftrace_trace_python apiNoName (some (1, "call", 0)) tsSkip).st.proc = tsSkip.proc) ∧
      ((uftrace_trace_python apiNoName (some (1, "call", 0)) tsSkip).ret = PyRet.traceFunc)) :=
  ⟨Or.inl rfl, by decide, rfl, rfl, rfl,
    claim4_name_failure apiNoName tsSkip 1 0 10 "call" (Or.inl rfl) (by decide) rfl rfl rfl⟩

/-! Claim C5. -/

/-- C5, counterexample to the claim as stated.  The claim says finalize
always releases the mapping, closes the backing descriptor and removes the
shared segment, including when writing the output file fails.  When
`fopen(filename, "w")` fails, `write_symtab` warns and returns at once:
`munmap`, `close` and `uftrace_shmem_unlink` are all skipped. -/
theorem claim5_counterexample :
    ((write_symtab false ("python".data) (some init_symtab)).warned = true) ∧
    ((write_symtab false ("python".data) (some init_symtab)).unmapped = false) ∧
    ((write_symtab false ("python".data) (some init_symtab)).fdClosed = false) ∧
    ((write_symtab false ("python".data) (some init_symtab)).unlinked = false) :=
  ⟨rfl, rfl, rfl, rfl⟩

/-- C5 (amended): `write_symtab` releases the mapping, closes the backing
file descriptor and removes the shared segment exactly when the output
file could be opened; when `fopen` fails it only warns — the shutdown path
is not aborted, but neither is any cleanup performed.  (A short `fwrite`
cannot make the copy loop fail: `fwrite` never returns a negative value,
so the fatal branch in the loop is unreachable and the successful-open
path always runs the cleanup.) -/
theorem claim5_cleanup_iff_open (ok : Bool) (pathName : List Char) (st : Symtab) :
    ((write_symtab ok pathName (some st)).unmapped = ok) ∧
    ((write_symtab ok pathName (some st)).fdClosed = ok) ∧
    ((write_symtab ok pathName (some st)).unlinked = ok) ∧
    ((write_symtab ok pathName (some st)).warned = !ok) ∧
    ((write_symtab ok pathName (some st)).fileContent =
      if ok then some (fileBytes pathName st) else none) := by
  cases ok <;> simp [write_symtab]

/-- C5, witness for the amended theorem on the successful-open path. -/
theorem claim5_cleanup_iff_open_witness :
    ((write_symtab true ("python".data) (some init_symtab)).unmapped = true) ∧
    ((write_symtab true ("python".data) (some init_symtab)).fdClosed = true) ∧
    ((write_symtab true ("python".data) (some init_symtab)).unlinked = true) ∧
    ((write_symtab true ("python".data) (some init_symtab)).warned = !true) ∧
    ((write_symtab true ("python".data) (some init_symtab)).fileContent =
      if true then some (fileBytes ("python".data) init_symtab) else none) :=
  claim5_cleanup_iff_open true ("python".data) init_symtab

/-! Claim C9. -/

/-- C9: evidence that the code contradicts the claim (and the spec's
"complete no-op" intent).  With `UFTRACE_SHMEM` unset, `init_uftrace`
indeed creates no segment and searches no hooks, and `symtab` stays NULL;
but the `__attribute__((destructor))` shutdown hook still calls
`write_symtab` unconditionally, so when `fopen` succeeds (the output
directory exists) the subsystem creates/truncates the `.sym` file — it
persists an artifact — and then dereferences the NULL `symtab` pointer in
`pr_dbg("...", symtab->count)`. -/
theorem claim9_gating_code_bug :
    ((init_uftrace none none).1.segmentCreated = false) ∧
    ((init_uftrace none none).1.hooksSearched = false) ∧
    ((init_uftrace none none).2 = none) ∧
    ((uftrace_trace_python_finish (init_uftrace none none).2 true
        ("python".data)).fileCreated = true) ∧
    ((uftrace_trace_python_finish (init_uftrace none none).2 true
        ("python".data)).nullDeref = true) :=
  ⟨rfl, rfl, rfl, rfl, rfl⟩

/-! Claim C6. -/

/-- C6: for any allocation sequence (however many times the growth step
fired), the bytes of the region `[headerSize, offset)` are exactly the
formatted entry lines in allocation order, the finalized file is the
header block followed by all N entries, contiguous and well-formed, and
the sentinel; and a single allocation never changes any byte below the
pre-allocation offset, so the growth-and-write step leaves every
previously written entry byte unchanged (the remap itself preserves the
mapping content by the semantics of `mremap`). -/
theorem claim6_growth_preserves_entries (l : List Alloc) (pathName : List Char)
    (h : UFTRACE_PYTHON_SYMTAB_HDRSZ + totalSize l < 2 ^ 32) :
    (readRegion (runAllocs init_symtab l).2.data UFTRACE_PYTHON_SYMTAB_HDRSZ
        ((runAllocs init_symtab l).2.offset - UFTRACE_PYTHON_SYMTAB_HDRSZ) =
      entriesFrom 0 l) ∧
    ((write_symtab true pathName (some (runAllocs init_symtab l).2)).fileContent =
      some (headerBlock l.length pathName ++ entriesFrom 0 l ++ sentinelLine l.length)) ∧
    (∀ (st0 : Symtab) (name : List Char) (k : Bool) (i : Nat),
      i < st0.offset → (get_new_sym_addr name k st0).2.data i = st0.data i) := by
  have h48 : init_symtab.offset = UFTRACE_PYTHON_SYMTAB_HDRSZ := rfl
  have hc0 : init_symtab.count = 0 := rfl
  obtain ⟨hoff, hcnt, _, hregion⟩ :=
    runAllocs_spec l init_symtab (by norm_num [init_symtab]) (by rw [h48]; exact h)
  rw [h48] at hoff hregion
  rw [hc0] at hregion
  have hlen : l.length < 2 ^ 32 :=
    lt_of_le_of_lt (length_le_totalSize l) (by omega)
  have hcnt3 : (runAllocs init_symtab l).2.count = l.length := by
    rw [hcnt, hc0, Nat.zero_add]
    exact Nat.mod_eq_of_lt hlen
  have ha : readRegion (runAllocs init_symtab l).2.data UFTRACE_PYTHON_SYMTAB_HDRSZ
      ((runAllocs init_symtab l).2.offset - UFTRACE_PYTHON_SYMTAB_HDRSZ) =
      entriesFrom 0 l := by
    rw [hoff, Nat.add_sub_cancel_left]
    exact hregion
  refine ⟨ha, ?_, fun st0 name k i hi => by
    rw [alloc_data]; exact writeCStr_eq_of_lt _ _ _ _ hi⟩
  have hfc : (write_symtab true pathName (some (runAllocs init_symtab l).2)).fileContent =
      some (fileBytes pathName (runAllocs init_symtab l).2) := rfl
  rw [hfc]
  unfold fileBytes
  rw [hcnt3, ha]

/-- C6, witness at the one-element run `["a" managed]`. -/
theorem claim6_growth_preserves_entries_witness :
    (UFTRACE_PYTHON_SYMTAB_HDRSZ + totalSize [([('a' : Char)], true)] < 2 ^ 32) ∧
    ((readRegion (runAllocs init_symtab [([('a' : Char)], true)]).2.data
          UFTRACE_PYTHON_SYMTAB_HDRSZ
          ((runAllocs init_symtab [([('a' : Char)], true)]).2.offset -
            UFTRACE_PYTHON_SYMTAB_HDRSZ) =
        entriesFrom 0 [([('a' : Char)], true)]) ∧
      ((write_symtab true ("python".data)
          (some (runAllocs init_symtab [([('a' : Char)], true)]).2)).fileContent =
        some (headerBlock (List.length [([('a' : Char)], true)]) ("python".data) ++
          entriesFrom 0 [([('a' : Char)], true)] ++
          sentinelLine (List.length [([('a' : Char)], true)]))) ∧
      (∀ (st0 : Symtab) (name : List Char) (k : Bool) (i : Nat),
        i < st0.offset → (get_new_sym_addr name k st0).2.data i = st0.data i)) :=
  ⟨by decide,
    claim6_growth_preserves_entries [([('a' : Char)], true)] ("python".data) (by decide)⟩

/-! Claim C7. -/

/-- C7: with root-frame skipping enabled, the very first event records its
frame as the root frame, makes no hook call, leaves the cache and registry
untouched and returns `Py_None`; every later event on that same root frame
is skipped with no hook calls and no state change at all; an event on a
different frame is processed normally (shown for a `call` event: it goes
through `convert_function_addr` and calls the enter hook with the
resolved address). -/
theorem claim7_root_frame_skip (api : PyApi) (ts : TraceState) (frame args : Nat)
    (ev : String) (hskip_on : ts.skip_first_frame = true) :
    (ts.first_frame = none →
      ((uftrace_trace_python api (some (frame, ev, args)) ts).st.first_frame = some frame ∧
        (uftrace_trace_python api (some (frame, ev, args)) ts).hooks = [] ∧
        (uftrace_trace_python api (some (frame, ev, args)) ts).st.proc = ts.proc ∧
        (uftrace_trace_python api (some (frame, ev, args)) ts).ret = PyRet.pyNone)) ∧
    (∀ rt, ts.first_frame = some rt → frame = rt →
      ((uftrace_trace_python api (some (frame, ev, args)) ts).hooks = [] ∧
        (uftrace_trace_python api (some (frame, ev, args)) ts).st = ts ∧
        (uftrace_trace_python api (some (frame, ev, args)) ts).ret = PyRet.pyNone)) ∧
    (∀ rt, ts.first_frame = some rt → frame ≠ rt → ev = "call" →
      ((uftrace_trace_python api (some (frame, ev, args)) ts).hooks =
          [HookCall.enter (convert_function_addr api frame args true ts.proc).1 0] ∧
        (uftrace_trace_python api (some (frame, ev, args)) ts).st.proc =
          (convert_function_addr api frame args true ts.proc).2 ∧
        (uftrace_trace_python api (some (frame, ev, args)) ts).st.first_frame = some rt ∧
        (uftrace_trace_python api (some (frame, ev, args)) ts).ret = PyRet.traceFunc)) := by
  refine ⟨?_, ?_, ?_⟩
  · intro hff
    refine ⟨?_, ?_, ?_, ?_⟩ <;> simp [uftrace_trace_python, hff, hskip_on]
  · intro rt hff hfr
    subst hfr
    rcases ts with ⟨ff0, sk, pr⟩
    simp only [] at hff hskip_on
    subst hff
    subst hskip_on
    refine ⟨?_, ?_, ?_⟩ <;> simp [uftrace_trace_python]
  · intro rt hff hne hev
    subst hev
    refine ⟨?_, ?_, ?_, ?_⟩ <;> simp [uftrace_trace_python, hff, hskip_on, hne]

/-- C7, witness: fresh adapter state with skipping on; the first-event
conjunct is discharged at frame 5, the other conjuncts hold vacuously or at
their concrete frames. -/
theorem claim7_root_frame_skip_witness :
    (tsFresh.skip_first_frame = true) ∧
    ((tsFresh.first_frame = none →
      ((uftrace_trace_python apiHit (some (5, "call", 0)) tsFresh).st.first_frame = some 5 ∧
        (uftrace_trace_python apiHit (some (5, "call", 0)) tsFresh).hooks = [] ∧
        (uftrace_trace_python apiHit (some (5, "call", 0)) tsFresh).st.proc = tsFresh.proc ∧
        (uftrace_trace_python apiHit (some (5, "call", 0)) tsFresh).ret = PyRet.pyNone)) ∧
    (∀ rt, tsFresh.first_frame = some rt → 5 = rt →
      ((uftrace_trace_python apiHit (some (5, "call", 0)) tsFresh).hooks = [] ∧
        (uftrace_trace_python apiHit (some (5, "call", 0)) tsFresh).st = tsFresh ∧
        (uftrace_trace_python apiHit (some (5, "call", 0)) tsFresh).ret = PyRet.pyNone)) ∧
    (∀ rt, tsFresh.first_frame = some rt → 5 ≠ rt → ("call" : String) = "call" →
      ((uftrace_trace_python apiHit (some (5, "call", 0)) tsFresh).hooks =
          [HookCall.enter (convert_function_addr apiHit 5 0 true tsFresh.proc).1 0] ∧
        (uftrace_trace_python apiHit (some (5, "call", 0)) tsFresh).st.proc =
          (convert_function_addr apiHit 5 0 true tsFresh.proc).2 ∧
        (uftrace_trace_python apiHit (some (5, "call", 0)) tsFresh).st.first_frame = some rt ∧
        (uftrace_trace_python apiHit (some (5, "call", 0)) tsFresh).ret = PyRet.traceFunc))) :=
  ⟨rfl, claim7_root_frame_skip apiHit tsFresh 5 0 "call" rfl⟩

/-! Claim C8. -/

/-- C8, counterexample to the claim as stated.  The claim says every
invocation returns the callback handle, including events it skips.  The
very first event on a fresh adapter with root-frame skipping enabled is
skipped and returns `Py_None` (`Py_RETURN_NONE`), not the trace function
handle, so the claim fails at that input. -/
theorem claim8_counterexample :
    ((uftrace_trace_python apiNoName (some (5, "call", 0)) tsFresh).ret = PyRet.pyNone) ∧
    (PyRet.pyNone ≠ PyRet.traceFunc) :=
  ⟨rfl, by decide⟩

/-- C8 (amended): every invocation that parses its arguments and is not
suppressed by the root-frame filter returns the trace function handle —
whatever the event string is and even when address resolution fails; the
root-frame-skipped invocations (and unparsable ones) return `Py_None`
instead. -/
theorem claim8_returns_handle (api : PyApi) (ts : TraceState) (frame args : Nat)
    (ev : String)
    (h : ¬(ts.skip_first_frame = true ∧ frame = ts.first_frame.getD frame)) :
    (uftrace_trace_python api (some (frame, ev, args)) ts).ret = PyRet.traceFunc := by
  simp only [uftrace_trace_python]
  rw [if_neg h]
  by_cases h1 : ev = "call" ∨ ev = "c_call"
  · rw [if_pos h1]
  · rw [if_neg h1]
    by_cases h2 : ev = "return" ∨ ev = "c_return"
    · rw [if_pos h2]
    · rw [if_neg h2]
      by_cases h3 : ev = "c_exception"
      · rw [if_pos h3]
      · rw [if_neg h3]

/-- C8, witness: a `c_exception` event on frame 1 while the recorded root
frame is 99 passes the filter and returns the trace function handle. -/
theorem claim8_returns_handle_witness :
    (¬(tsSkip.skip_first_frame = true ∧ 1 = tsSkip.first_frame.getD 1)) ∧
    ((uftrace_trace_python apiNoName (some (1, "c_exception", 0)) tsSkip).ret =
      PyRet.traceFunc) :=
  ⟨by decide, claim8_returns_handle apiNoName tsSkip 1 0 "c_exception" (by decide)⟩

/-! Claim C10. -/

/-- C10: the growth check fires exactly when the new offset is greater
than or equal to the mapped size — the boundary case `new offset = size`
included — and then extends the mapping by exactly one
`UFTRACE_PYTHON_SYMTAB_SIZE` (1 MiB) unit; given the single-process
invariant `offset < size` and an entry no larger than one unit, every byte
the call writes (the NUL terminator included) lies inside the mapped
region after the growth step, and the invariant is preserved. -/
theorem claim10_growth_bounds (st : Symtab) (name : List Char) (k : Bool)
    (hinv : st.offset < st.size)
    (hentry : name.length + 20 ≤ UFTRACE_PYTHON_SYMTAB_SIZE)
    (h1 : st.offset + (name.length + 20) < 2 ^ 32)
    (h2 : st.size + UFTRACE_PYTHON_SYMTAB_SIZE < 2 ^ 32) :
    ((get_new_sym_addr name k st).2.size =
      if st.size ≤ st.offset + (name.length + 20) then
        st.size + UFTRACE_PYTHON_SYMTAB_SIZE
      else st.size) ∧
    (∀ i, (get_new_sym_addr name k st).2.data i ≠ st.data i →
      i < (get_new_sym_addr name k st).2.size) ∧
    ((get_new_sym_addr name k st).2.offset < (get_new_sym_addr name k st).2.size) := by
  have hmod : (st.offset + (name.length + 20)) % 2 ^ 32 = st.offset + (name.length + 20) :=
    Nat.mod_eq_of_lt h1
  have hsize : (get_new_sym_addr name k st).2.size =
      if st.size ≤ st.offset + (name.length + 20) then
        st.size + UFTRACE_PYTHON_SYMTAB_SIZE
      else st.size := by
    rw [alloc_size, hmod]
    by_cases hc : st.size ≤ st.offset + (name.length + 20)
    · rw [if_pos hc, if_pos hc, Nat.mod_eq_of_lt h2]
    · rw [if_neg hc, if_neg hc]
  have hflen := formatLine_length ((st.count + 1) % 2 ^ 32) (kindChar k) name
  refine ⟨hsize, ?_, ?_⟩
  · intro i hi
    rw [alloc_data] at hi
    have hb := writeCStr_changed _ _ _ _ hi
    rw [hflen] at hb
    rw [hsize]
    by_cases hc : st.size ≤ st.offset + (name.length + 20)
    · rw [if_pos hc]; omega
    · rw [if_neg hc]; omega
  · rw [alloc_offset, hmod, hsize]
    by_cases hc : st.size ≤ st.offset + (name.length + 20)
    · rw [if_pos hc]; omega
    · rw [if_neg hc]; omega

/-- C10, witness at the fresh registry and name `"a"`. -/
theorem claim10_growth_bounds_witness :
    (init_symtab.offset < init_symtab.size) ∧
    ((([('a' : Char)] : List Char).length + 20) ≤ UFTRACE_PYTHON_SYMTAB_SIZE) ∧
    (init_symtab.offset + (([('a' : Char)] : List Char).length + 20) < 2 ^ 32) ∧
    (init_symtab.size + UFTRACE_PYTHON_SYMTAB_SIZE < 2 ^ 32) ∧
    (((get_new_sym_addr [('a' : Char)] true init_symtab).2.size =
        if init_symtab.size ≤ init_symtab.offset + (([('a' : Char)] : List Char).length + 20) then
          init_symtab.size + UFTRACE_PYTHON_SYMTAB_SIZE
        else init_symtab.size) ∧
      (∀ i, (get_new_sym_addr [('a' : Char)] true init_symtab).2.data i ≠ init_symtab.data i →
        i < (get_new_sym_addr [('a' : Char)] true init_symtab).2.size) ∧
      ((get_new_sym_addr [('a' : Char)] true init_symtab).2.offset <
        (get_new_sym_addr [('a' : Char)] true init_symtab).2.size)) :=
  ⟨by decide, by decide, by decide, by decide,
    claim10_growth_bounds init_symtab [('a' : Char)] true (by decide) (by decide)
      (by decide) (by decide)⟩

end UftracePy
